import Mathlib

/-!
Shallow embedding of the Bibrecord retrieval tool's batch-fetch engine
(`request.py` and `utils.py`), together with theorems checking the
natural-language specification against it.

Modelling conventions:
* The two artifact directories created at module load
  (`OCNrecords/requested` and `OCNrecords/requested_holdings`) are modelled
  as association lists from filename to file data; `request.py` pre-creates
  both directories at import time, so they always exist.
* Network I/O is modelled by oracles: the result a given remote call would
  produce.  Python exceptions become `Except` errors carrying the fields that
  `_friendly_error_message` inspects (HTTP status code and message text).
* Every remote call initiation is recorded as an `Action`; the `Action` type
  also has a `sleep` constructor so that the (absence of) pacing waits in the
  client's call paths is expressible.  The source contains no rate limiter,
  lock or sleep, so no definition below ever emits `Action.sleep`.
* The worker pool is linearized: units execute in submission order, and the
  scheduler consumes their results in that order.  Per-unit effects touch only
  files keyed by that unit's own identifier, so this is an admissible
  interleaving.
-/

namespace Bibrecord

/-! ## Filesystem model -/

/-- Contents of a persisted artifact: raw record bytes, or a serialized
holdings snapshot (`json.dump` output is determined by the snapshot). -/
inductive FileData where
  | bytes (b : String)
  | json (h : List (String × Int × Int × Int))
deriving Repr, DecidableEq

/-- A directory: an association list from filename to contents. -/
abbrev Dir := List (String × FileData)

/-- The two artifact directories used by `request.py`:
`OCNrecords/requested` (record artifacts) and
`OCNrecords/requested_holdings` (holdings artifacts). -/
structure FS where
  requested : Dir
  holdings : Dir
deriving Repr, DecidableEq

/-- Look a filename up in a directory (`os.path.exists` / reading). -/
def lookupFile : Dir → String → Option FileData
  | [], _ => none
  | (n, c) :: rest, m => if m = n then some c else lookupFile rest m

/-- Write a file (`open(path, "wb")` truncates and rewrites). -/
def writeFile : Dir → String → FileData → Dir
  | [], n, c => [(n, c)]
  | (m, c') :: rest, n, c =>
    if m = n then (n, c) :: rest else (m, c') :: writeFile rest n c

/-! ## Exceptions and the user-facing error taxonomy (`_friendly_error_message`) -/

/-- A Python exception as inspected by `_friendly_error_message`: an optional
HTTP status code (from `exc.status_code` or `exc.response.status_code`) and
the exception's text `str(exc)`. -/
structure Exc where
  status : Option Nat
  msg : String
deriving Repr, DecidableEq

/-- Does `pat` occur as a contiguous substring at the head of `s`? -/
def startsWithChars : List Char → List Char → Bool
  | [], _ => true
  | _ :: _, [] => false
  | p :: ps, c :: cs => p = c && startsWithChars ps cs

/-- Does `pat` occur as a contiguous substring anywhere in `s`?
(Python's `pat in s`.) -/
def hasSubChars (pat : List Char) : List Char → Bool
  | [] => startsWithChars pat []
  | c :: cs => startsWithChars pat (c :: cs) || hasSubChars pat cs

/-- Python's `pat in s` on strings. -/
def strHas (s pat : String) : Bool := hasSubChars pat.toList s.toList

/-- Python whitespace stripped by `str.strip()`. -/
def isPyWhitespace (c : Char) : Bool :=
  c = ' ' || c = '\t' || c = '\n' || c = '\r' || c = '\x0b' || c = '\x0c'

/-- Python's `str.strip()`: remove leading and trailing whitespace. -/
def pyStrip (s : String) : String :=
  ⟨((s.toList.dropWhile isPyWhitespace).reverse.dropWhile isPyWhitespace).reverse⟩

/-- Python's `str.lower()`. -/
def lowerStr (s : String) : String := ⟨s.toList.map Char.toLower⟩

/-- `_friendly_error_message` from `request.py`: map a failed fetch's
exception to a concise user-facing reason. -/
def friendly_error_message (exc : Exc) : String :=
  let msg := exc.msg
  let low := lowerStr msg
  match exc.status with
  | some status =>
    if status = 401 then
      "Authentication failed (401). Check API key/secret/scope in config.ini."
    else if status = 403 then
      "Access forbidden (403). Scope/permissions may be insufficient."
    else if status = 404 then
      "Record not found (404). The OCN may be invalid or not available."
    else if status = 429 then
      "Rate limited (429). Too many requests — please try again later."
    else if 500 ≤ status ∧ status ≤ 599 then
      s!"WorldCat service error ({status}). Try again later."
    else
      s!"HTTP error ({status})."
  | none =>
    if strHas low "timed out" || strHas low "timeout" then
      "Network timeout contacting WorldCat."
    else if strHas low "ssl" then
      "SSL/TLS connection problem."
    else if strHas low "connection" &&
        (strHas low "refused" || strHas low "reset" || strHas low "aborted") then
      "Network connection error."
    else if strHas low "oclc number" && strHas low "invalid" then
      "Invalid OCN format."
    else if msg = "" then "Unknown error" else msg

/-! ## Remote calls and actions

Each outbound API call initiation is recorded.  `request.py` contains no rate
limiter and never sleeps between calls, so the definitions below never
produce `Action.sleep`; the constructor exists so that the enforced pacing
wait of the call paths can be stated (it is zero). -/

/-- One outbound WorldCat Metadata API call. -/
inductive ApiCall where
  | bib (ocn : String)
  | summaryBatched (ocn : String)
  | summarySymbol (ocn : String) (symbol : String)
deriving Repr, DecidableEq

/-- The identifier a call is for. -/
def ApiCall.callOcn : ApiCall → String
  | .bib o => o
  | .summaryBatched o => o
  | .summarySymbol o _ => o

/-- An observable step of the client: a call initiation or a pacing wait
(milliseconds).  No code path of `request.py` produces `sleep`. -/
inductive Action where
  | call (c : ApiCall)
  | sleep (ms : Nat)
deriving Repr, DecidableEq

/-- Is this action a call initiation (as opposed to a pacing wait)? -/
def Action.isCall : Action → Bool
  | .call _ => true
  | .sleep _ => false

/-- Total enforced pacing wait, in milliseconds, of an action trace. -/
def sleepTotal : List Action → Nat
  | [] => 0
  | .call _ :: rest => sleepTotal rest
  | .sleep ms :: rest => ms + sleepTotal rest

/-- Does the action mention (call on behalf of) the given identifier? -/
def Action.mentions : Action → String → Bool
  | .call c, o => c.callOcn = o
  | .sleep _, _ => false

/-! ## Holdings fetch (`fetch_holdingsdata`) -/

/-- Fields of one per-symbol `summary_holdings_get` JSON response that the
source reads (each `holdings.get(key, 0)` defaults to 0 when absent). -/
structure SymbolResp where
  totalHoldingCount : Option Int
  totalSharedPrintCount : Option Int
  totalEditions : Option Int
deriving Repr, DecidableEq

/-- One element of a per-institution breakdown list in a batched response:
the three symbol keys probed by the source plus the three counts. -/
structure InstEntry where
  institutionSymbol : Option String
  symbol : Option String
  oclcSymbol : Option String
  totalHoldingCount : Option Int
  totalSharedPrintCount : Option Int
  totalEditions : Option Int
deriving Repr, DecidableEq

/-- A batched `summary_holdings_get` response body (a JSON dict): the four
alternative per-institution list keys probed in order by the source, and the
top-level counts used as inner defaults. -/
structure BatchedData where
  institutions : Option (List InstEntry)
  holdingInstitutions : Option (List InstEntry)
  libraries : Option (List InstEntry)
  resultsByInstitution : Option (List InstEntry)
  totalHoldingCount : Option Int
  totalSharedPrintCount : Option Int
  totalEditions : Option Int
deriving Repr, DecidableEq

/-- One entry appended to `combined_holdings['holdings']`. -/
structure HoldingsEntry where
  institutionSymbol : String
  totalHoldingCount : Int
  totalSharedPrintCount : Int
  totalEditions : Int
deriving Repr, DecidableEq

/-- The `combined_holdings` dict built by `fetch_holdingsdata`. -/
structure CombinedHoldings where
  ocn : String
  holdings : List HoldingsEntry
deriving Repr, DecidableEq

/-- Serialization of a snapshot as written by `save_holdingsdata`
(deterministic `json.dump`). -/
def CombinedHoldings.serialize (h : CombinedHoldings) : FileData :=
  .json (h.holdings.map fun e =>
    (e.institutionSymbol, e.totalHoldingCount, e.totalSharedPrintCount, e.totalEditions))

/-- The default `held_by_symbols` list of `fetch_holdingsdata`. -/
def default_held_by_symbols : List String :=
  ["QGE", "QGK", "NLTUD", "NETUE", "QGQ", "L2U", "NLMAA", "GRG", "GRU", "QHU",
   "QGJ", "VU@", "WURST"]

/-- Python `a or b` on a `.get` result: `None` and `""` are falsy. -/
def pyOrStr (a b : Option String) : Option String :=
  match a with
  | some s => if s = "" then b else some s
  | none => b

/-- Python `a or "UNKNOWN"`. -/
def pyTruthyStr (a : Option String) (dflt : String) : String :=
  match a with
  | some s => if s = "" then dflt else s
  | none => dflt

/-- The key-probing loop of the batched path: the first of the four keys
whose value is a list. -/
def findInstitutions (d : BatchedData) : Option (List InstEntry) :=
  d.institutions <|> d.holdingInstitutions <|> d.libraries <|> d.resultsByInstitution

/-- The `holdings_data` dict built for one institution of a batched
response (`inst.get(key, data.get(key, 0))`). -/
def instHoldingsData (data : BatchedData) (inst : InstEntry) : HoldingsEntry :=
  { institutionSymbol :=
      pyTruthyStr (pyOrStr (pyOrStr inst.institutionSymbol inst.symbol) inst.oclcSymbol)
        "UNKNOWN"
    totalHoldingCount := inst.totalHoldingCount.getD (data.totalHoldingCount.getD 0)
    totalSharedPrintCount :=
      inst.totalSharedPrintCount.getD (data.totalSharedPrintCount.getD 0)
    totalEditions := inst.totalEditions.getD (data.totalEditions.getD 0) }

/-- The `holdings_data` dict built for one symbol of the per-symbol loop:
counts default to 0 when absent from the response. -/
def entryOfResp (s : String) (r : SymbolResp) : HoldingsEntry :=
  { institutionSymbol := s
    totalHoldingCount := r.totalHoldingCount.getD 0
    totalSharedPrintCount := r.totalSharedPrintCount.getD 0
    totalEditions := r.totalEditions.getD 0 }

/-- The per-symbol fallback loop of `fetch_holdingsdata`: one
`summary_holdings_get` per symbol, in order.  The loop body has no
`try`/`except`, so an exception raised for one symbol propagates immediately
and the remaining symbols are not attempted.  Returns the actions performed
and the loop's outcome. -/
def perSymbolHoldings (ocn : String) (perSymbol : String → Except Exc SymbolResp) :
    List String → List Action × Except Exc (List HoldingsEntry)
  | [] => ([], .ok [])
  | s :: rest =>
    match perSymbol s with
    | .error e => ([.call (.summarySymbol ocn s)], .error e)
    | .ok r =>
      let tail := perSymbolHoldings ocn perSymbol rest
      (.call (.summarySymbol ocn s) :: tail.1,
       match tail.2 with
       | .error e => .error e
       | .ok hs => .ok (entryOfResp s r :: hs))

/-- `fetch_holdingsdata` from `request.py`.  `batched` is the outcome of the
initial batched `summary_holdings_get` attempt (including `.json()` parsing);
any exception there is swallowed and the per-symbol fallback runs.  When the
batched response carries a per-institution breakdown, it is used directly;
otherwise the per-symbol fallback runs.  Returns the actions performed and
the result (`.error` models the exception propagating to the caller). -/
def fetch_holdingsdata (ocn : String) (held_by_symbols : List String)
    (batched : Except Exc BatchedData) (perSymbol : String → Except Exc SymbolResp) :
    List Action × Except Exc CombinedHoldings :=
  match batched with
  | .error _ =>
    let fb := perSymbolHoldings ocn perSymbol held_by_symbols
    (.call (.summaryBatched ocn) :: fb.1,
     match fb.2 with
     | .error e => .error e
     | .ok hs => .ok { ocn := ocn, holdings := hs })
  | .ok data =>
    match findInstitutions data with
    | some insts =>
      ([.call (.summaryBatched ocn)],
       .ok { ocn := ocn, holdings := insts.map (instHoldingsData data) })
    | none =>
      let fb := perSymbolHoldings ocn perSymbol held_by_symbols
      (.call (.summaryBatched ocn) :: fb.1,
       match fb.2 with
       | .error e => .error e
       | .ok hs => .ok { ocn := ocn, holdings := hs })

/-- Does `fetch_holdingsdata` take the per-symbol path (batched attempt
failed, or its response has no per-institution breakdown)? -/
def usesPerSymbolPath : Except Exc BatchedData → Bool
  | .error _ => true
  | .ok data => (findInstitutions data).isNone

/-! ## Work unit executor (`fetch_and_save_data`) -/

/-- A call to the progress reporter (`reporter.xml_done` / `reporter.json_done`). -/
inductive ReporterCall where
  | xml_done (ocn : String)
  | json_done (ocn : String)
deriving Repr, DecidableEq

/-- One guarded reporter invocation, modelling the source's
`try: reporter.f(ocn)` / `except Exception: pass`: when the callback raises,
the exception is swallowed and no event is recorded.  `raises c` says whether
the reporter raises on call `c`. -/
def reportGuarded (raises : ReporterCall → Bool) (c : ReporterCall)
    (events : List ReporterCall) : List ReporterCall :=
  if raises c then events else events ++ [c]

/-- The network oracles one work unit consults: the record fetch
(`bib_get`), the batched holdings attempt, and the per-symbol holdings
responses. -/
structure UnitOracles where
  marc : Except Exc String
  batched : Except Exc BatchedData
  perSymbol : String → Except Exc SymbolResp

/-- Everything one `fetch_and_save_data` run produces: the filesystem after
the run, the API calls initiated, the reporter events that reached the
queue, and the returned `(ocn, error)` pair. -/
structure UnitOutcome where
  fs : FS
  actions : List Action
  events : List ReporterCall
  ocn : String
  error : Option String
deriving Repr, DecidableEq

/-- The record artifact filename for an identifier (`f"{ocn}.xml"`). -/
def xmlFilename (ocn : String) : String := ocn ++ ".xml"

/-- The holdings artifact filename (`f"{ocn}_holdings.json"`). -/
def holdingsFilename (ocn : String) : String := ocn ++ "_holdings.json"

/-- `fetch_and_save_data` from `request.py`, one work unit: skip or fetch and
persist the record, then (when requested) skip or fetch and persist the
holdings, reporting sub-step completion; every exception is mapped by
`_friendly_error_message` and returned, never raised.  The built
`combined_holdings` dict is non-empty, hence the source's `if holdings:`
guard is always taken. -/
def fetch_and_save_data (ocn : String) (fetch_holdings : Bool)
    (raises : ReporterCall → Bool) (o : UnitOracles) (fs : FS) : UnitOutcome :=
  if (lookupFile fs.requested (xmlFilename ocn)).isSome then
    -- record artifact already exists: record sub-step is already complete
    let ev := reportGuarded raises (.xml_done ocn) []
    if fetch_holdings then
      if (lookupFile fs.holdings (holdingsFilename ocn)).isSome then
        { fs := fs, actions := [], events := reportGuarded raises (.json_done ocn) ev,
          ocn := ocn, error := none }
      else
        let hres := fetch_holdingsdata ocn default_held_by_symbols o.batched o.perSymbol
        match hres.2 with
        | .error e =>
          { fs := fs, actions := hres.1, events := ev, ocn := ocn,
            error := some (friendly_error_message e) }
        | .ok h =>
          { fs := { fs with holdings := writeFile fs.holdings (holdingsFilename ocn) h.serialize },
            actions := hres.1, events := reportGuarded raises (.json_done ocn) ev,
            ocn := ocn, error := none }
    else
      { fs := fs, actions := [], events := ev, ocn := ocn, error := none }
  else
    match o.marc with
    | .error e =>
      { fs := fs, actions := [.call (.bib ocn)], events := [], ocn := ocn,
        error := some (friendly_error_message e) }
    | .ok content =>
      let fs1 : FS := { fs with requested := writeFile fs.requested (xmlFilename ocn) (.bytes content) }
      let ev := reportGuarded raises (.xml_done ocn) []
      if fetch_holdings then
        if (lookupFile fs1.holdings (holdingsFilename ocn)).isSome then
          { fs := fs1, actions := [.call (.bib ocn)],
            events := reportGuarded raises (.json_done ocn) ev, ocn := ocn, error := none }
        else
          let hres := fetch_holdingsdata ocn default_held_by_symbols o.batched o.perSymbol
          match hres.2 with
          | .error e =>
            { fs := fs1, actions := .call (.bib ocn) :: hres.1, events := ev, ocn := ocn,
              error := some (friendly_error_message e) }
          | .ok h =>
            { fs := { fs1 with holdings := writeFile fs1.holdings (holdingsFilename ocn) h.serialize },
              actions := .call (.bib ocn) :: hres.1,
              events := reportGuarded raises (.json_done ocn) ev, ocn := ocn, error := none }
      else
        { fs := fs1, actions := [.call (.bib ocn)], events := ev, ocn := ocn, error := none }

/-! ## Batch scheduler (`process_data`) -/

/-- `os.path.splitext(name)[0]` on the reversed character list: the name up
to the last dot — unless every character before that dot is itself a dot, in
which case there is no extension (leading dots belong to the root). -/
def splitextRootRevAux : List Char → Option (List Char)
  | [] => none
  | c :: rest =>
    if c = '.' then (if rest.any (fun d => d != '.') then some rest else none)
    else splitextRootRevAux rest

/-- `os.path.splitext(name)[0]` for a plain filename. -/
def splitextRoot (name : String) : String :=
  match splitextRootRevAux name.toList.reverse with
  | some root => ⟨root.reverse⟩
  | none => name

/-- `drop_duplicates` keeping the first occurrence, with the already-seen
values accumulated. -/
def dedupFirstGo (seen : List String) : List String → List String
  | [] => []
  | x :: xs => if x ∈ seen then dedupFirstGo seen xs else x :: dedupFirstGo (x :: seen) xs

/-- pandas `drop_duplicates` on a column: keep the first occurrence. -/
def dedupFirst (l : List String) : List String := dedupFirstGo [] l

/-- The splitext roots of the files in the requested-records directory
(`set(os.path.splitext(f)[0] for f in os.listdir(requested_dir))`). -/
def existingBases (fs : FS) : List String :=
  fs.requested.map fun p => splitextRoot p.1

/-- The pre-filter of `process_data`: strip every identifier, drop blanks,
drop duplicates; when holdings are not requested, also drop identifiers
whose splitext root matches an existing record file. -/
def prefilteredOcns (rows : List String) (fetch_holdings : Bool) (fs : FS) : List String :=
  let df := dedupFirst ((rows.map pyStrip).filter fun s => s != "")
  if fetch_holdings then df
  else df.filter fun s => !((existingBases fs).contains s)

/-- Execute the submitted work units (linearized in submission order),
threading the filesystem; returns the final filesystem, all actions, and the
units' `(ocn, error)` results in order. -/
def execUnits (fetch_holdings : Bool) (raises : ReporterCall → Bool)
    (oracles : String → UnitOracles) :
    FS → List String → FS × List Action × List (String × Option String)
  | fs, [] => (fs, [], [])
  | fs, ocn :: rest =>
    let out := fetch_and_save_data ocn fetch_holdings raises (oracles ocn) fs
    let tail := execUnits fetch_holdings raises oracles out.fs rest
    (tail.1, out.actions ++ tail.2.1, (out.ocn, out.error) :: tail.2.2)

/-- Consuming one completed unit's result: on an error, append the formatted
line `f"OCN {ocn}: {error}"` and flip both aggregate flags to `False`.
The accumulator is `(all_fetched, all_saved, error_list)`. -/
def processResult (acc : Bool × Bool × List String) (r : String × Option String) :
    Bool × Bool × List String :=
  match r.2 with
  | none => acc
  | some err => (false, false, acc.2.2 ++ ["OCN " ++ r.1 ++ ": " ++ err])

/-- The formatted error line a failing unit contributes, if any. -/
def errorLine (r : String × Option String) : Option String :=
  r.2.map fun err => "OCN " ++ r.1 ++ ": " ++ err

/-- The `for future in as_completed(futures)` loop of `process_data`:
`stop i` is the value of the session stop flag read at the top of iteration
`i`; when it is set the loop breaks (and the executor cancels not-yet-started
futures).  Returns the accumulator and the number of results consumed. -/
def schedulerLoop (stop : Nat → Bool) :
    Nat → (Bool × Bool × List String) → List (String × Option String) →
    (Bool × Bool × List String) × Nat
  | i, acc, [] => (acc, i)
  | i, acc, r :: rs =>
    if stop i then (acc, i) else schedulerLoop stop (i + 1) (processResult acc r) rs

/-- The first index in `i, i+1, …, i+n-1` at which the stop flag is observed
set, or `i + n` when it never is. -/
def firstStopFrom (stop : Nat → Bool) (i : Nat) : Nat → Nat
  | 0 => i
  | n + 1 => if stop i then i else firstStopFrom stop (i + 1) n

/-- First stop observation among iterations `0 … n-1`, or `n`. -/
def firstStopIndex (stop : Nat → Bool) (n : Nat) : Nat := firstStopFrom stop 0 n

/-- The result of one `process_data` run. -/
structure RunResult where
  fs : FS
  actions : List Action
  all_fetched : Bool
  all_saved : Bool
  error_list : List String
  processed : Nat
  submitted : List String
deriving Repr, DecidableEq

/-- `process_data` from `utils.py` (UI painting, the EMA/ETA display and the
debounce logic are display-only and elided): pre-filter the identifiers,
submit one work unit per surviving identifier, consume completions until
done or until the stop flag is observed.  The pool is modelled by the
schedule parameter `started`: the number of submitted units that have begun
by the time the stop flag breaks the loop; `shutdown(cancel_futures=True)`
cancels the rest, which therefore never execute, while units already started
run to completion (consumed results are completed, so at least
`firstStopIndex` units have started). -/
def process_data (rows : List String) (fetch_holdings : Bool) (stop : Nat → Bool)
    (raises : ReporterCall → Bool) (oracles : String → UnitOracles)
    (started : Nat) (fs : FS) : RunResult :=
  let ocns := prefilteredOcns rows fetch_holdings fs
  if ocns.length = 0 then
    { fs := fs, actions := [], all_fetched := true, all_saved := true,
      error_list := [], processed := 0, submitted := ocns }
  else
    let stopIdx := firstStopIndex stop ocns.length
    let executedCount :=
      if stopIdx < ocns.length then min ocns.length (max stopIdx started) else ocns.length
    let ex := execUnits fetch_holdings raises oracles fs (ocns.take executedCount)
    let loop := schedulerLoop stop 0 (true, true, []) ex.2.2
    { fs := ex.1, actions := ex.2.1, all_fetched := loop.1.1, all_saved := loop.1.2.1,
      error_list := loop.1.2.2, processed := loop.2, submitted := ocns }

/-! ## Completeness check (`verify_required_files`) -/

/-- The body of the `for raw in ocn_list` loop of `verify_required_files`,
acting on the accumulated `(missing_xml, missing_json)` lists. -/
def verifyStep (fs : FS) (require_json : Bool) (acc : List String × List String)
    (raw : String) : List String × List String :=
  let ocn := pyStrip raw
  if ocn = "" then acc
  else
    let mx := if (lookupFile fs.requested (ocn ++ ".xml")).isSome then acc.1
              else acc.1 ++ [ocn]
    let mj := if require_json && !(lookupFile fs.holdings (ocn ++ "_holdings.json")).isSome
              then acc.2 ++ [ocn] else acc.2
    (mx, mj)

/-- `verify_required_files` from `utils.py`:
`(all_present, missing_xml, missing_json)`. -/
def verify_required_files (fs : FS) (ocn_list : List String) (require_json : Bool) :
    Bool × List String × List String :=
  let m := ocn_list.foldl (verifyStep fs require_json) ([], [])
  (m.1.isEmpty && (!require_json || m.2.isEmpty), m.1, m.2)

/-! ## Concrete instances used to evaluate the model on explicit inputs -/

/-- An empty artifact store (fresh working directory). -/
def emptyFS : FS := { requested := [], holdings := [] }

/-- A successful per-symbol response with one count absent. -/
def okResp : SymbolResp :=
  { totalHoldingCount := some 1, totalSharedPrintCount := some 0, totalEditions := none }

/-- A connection failure (no HTTP status). -/
def connExc : Exc := { status := none, msg := "connection refused" }

/-- An HTTP 500 failure. -/
def serverExc : Exc := { status := some 500, msg := "Internal Server Error" }

/-- A rate-limit (HTTP 429) failure. -/
def rateExc : Exc := { status := some 429, msg := "Too Many Requests" }

/-- Oracles under which every remote call succeeds; the batched holdings
attempt fails, so the per-symbol fallback runs. -/
def allOkOracles : UnitOracles :=
  { marc := .ok "record-bytes", batched := .error connExc, perSymbol := fun _ => .ok okResp }

/-- Per-symbol oracle failing exactly on the 7th configured symbol
(`NLMAA`) with a non-rate-limit error. -/
def failSeventh : String → Except Exc SymbolResp :=
  fun s => if s = "NLMAA" then .error serverExc else .ok okResp

/-- Oracles whose holdings fetch fails on the 7th configured symbol. -/
def failOracles : UnitOracles :=
  { marc := .ok "record-bytes", batched := .error connExc, perSymbol := failSeventh }

/-- A store already holding the record artifact for identifier `1`. -/
def fsWithXml : FS := { requested := [("1.xml", .bytes "prior-record")], holdings := [] }

/-- A store holding the record artifact persisted for the (pathological)
identifier `.` — the file is named `..xml`. -/
def fsDotArtifact : FS := { requested := [("..xml", .bytes "prior-record")], holdings := [] }

/-! ## Helper lemmas: filesystem -/

theorem lookupFile_writeFile (d : Dir) (n m : String) (c : FileData) :
    lookupFile (writeFile d n c) m = if m = n then some c else lookupFile d m := by
  induction d with
  | nil =>
    simp only [writeFile, lookupFile]
  | cons p rest ih =>
    obtain ⟨pn, pc⟩ := p
    by_cases hpn : pn = n
    · subst hpn
      simp only [writeFile, if_pos rfl, lookupFile]
      by_cases hm : m = pn <;> simp [hm]
    · simp only [writeFile, if_neg hpn, lookupFile, ih]
      by_cases hmp : m = pn
      · subst hmp
        simp [hpn]
      · simp [hmp]

theorem lookupFile_writeFile_isSome (d : Dir) (n m : String) (c : FileData)
    (h : (lookupFile d m).isSome = true) :
    (lookupFile (writeFile d n c) m).isSome = true := by
  rw [lookupFile_writeFile]
  by_cases hmn : m = n <;> simp [hmn, h]

theorem lookupFile_isSome_exists_mem (d : Dir) (m : String)
    (h : (lookupFile d m).isSome = true) : ∃ c, (m, c) ∈ d := by
  induction d with
  | nil => simp [lookupFile] at h
  | cons p rest ih =>
    obtain ⟨pn, pc⟩ := p
    by_cases hm : m = pn
    · subst hm
      exact ⟨pc, List.mem_cons_self _ _⟩
    · simp only [lookupFile, if_neg hm] at h
      obtain ⟨c, hc⟩ := ih h
      exact ⟨c, List.mem_cons_of_mem _ hc⟩

/-! ## Helper lemmas: holdings fetch -/

theorem perSymbolHoldings_ok (ocn : String) (perSymbol : String → Except Exc SymbolResp)
    (resp : String → SymbolResp) :
    ∀ symbols : List String, (∀ s ∈ symbols, perSymbol s = .ok (resp s)) →
      perSymbolHoldings ocn perSymbol symbols =
        (symbols.map fun s => .call (.summarySymbol ocn s),
         .ok (symbols.map fun s => entryOfResp s (resp s))) := by
  intro symbols
  induction symbols with
  | nil => intro _; rfl
  | cons s rest ih =>
    intro h
    have hs : perSymbol s = .ok (resp s) := h s (List.mem_cons_self _ _)
    have hrest := ih fun x hx => h x (List.mem_cons_of_mem _ hx)
    simp only [perSymbolHoldings, hs, hrest, List.map_cons]

theorem perSymbolHoldings_error (ocn : String) (perSymbol : String → Except Exc SymbolResp)
    (e : Exc) (sym : String) :
    ∀ pre post : List String, (∀ s ∈ pre, ∃ r, perSymbol s = .ok r) →
      perSymbol sym = .error e →
      perSymbolHoldings ocn perSymbol (pre ++ sym :: post) =
        ((pre.map fun s => Action.call (.summarySymbol ocn s)) ++
          [.call (.summarySymbol ocn sym)], .error e) := by
  intro pre
  induction pre with
  | nil =>
    intro post _ herr
    simp only [List.nil_append, perSymbolHoldings, herr, List.map_nil]
  | cons s rest ih =>
    intro post hpre herr
    obtain ⟨r, hr⟩ := hpre s (List.mem_cons_self _ _)
    have hrest := ih post (fun x hx => hpre x (List.mem_cons_of_mem _ hx)) herr
    simp only [List.cons_append, perSymbolHoldings, hr, List.append_eq, hrest,
      List.map_cons]

theorem fetch_holdingsdata_perSymbolPath (ocn : String) (symbols : List String)
    (batched : Except Exc BatchedData) (perSymbol : String → Except Exc SymbolResp)
    (hpath : usesPerSymbolPath batched = true) :
    fetch_holdingsdata ocn symbols batched perSymbol =
      (let fb := perSymbolHoldings ocn perSymbol symbols
       (.call (.summaryBatched ocn) :: fb.1,
        match fb.2 with
        | .error e => .error e
        | .ok hs => .ok { ocn := ocn, holdings := hs })) := by
  match batched with
  | .error e => rfl
  | .ok data =>
    simp only [usesPerSymbolPath, Option.isNone_iff_eq_none] at hpath
    simp only [fetch_holdingsdata, hpath]

/-! ## Helper lemmas: work unit executor -/

theorem fetch_and_save_data_ocn (ocn : String) (fh : Bool) (raises : ReporterCall → Bool)
    (o : UnitOracles) (fs : FS) : (fetch_and_save_data ocn fh raises o fs).ocn = ocn := by
  unfold fetch_and_save_data
  repeat' first | split | dsimp only

theorem fetch_and_save_data_raises_agnostic (ocn : String) (fh : Bool)
    (raises raises' : ReporterCall → Bool) (o : UnitOracles) (fs : FS) :
    (fetch_and_save_data ocn fh raises o fs).fs = (fetch_and_save_data ocn fh raises' o fs).fs
    ∧ (fetch_and_save_data ocn fh raises o fs).actions
        = (fetch_and_save_data ocn fh raises' o fs).actions
    ∧ (fetch_and_save_data ocn fh raises o fs).error
        = (fetch_and_save_data ocn fh raises' o fs).error := by
  unfold fetch_and_save_data
  repeat' first | split | dsimp only
  all_goals simp

theorem fetch_and_save_data_preserves_requested (ocn : String) (fh : Bool)
    (raises : ReporterCall → Bool) (o : UnitOracles) (fs : FS) (name : String)
    (h : (lookupFile fs.requested name).isSome = true) :
    (lookupFile (fetch_and_save_data ocn fh raises o fs).fs.requested name).isSome = true := by
  unfold fetch_and_save_data
  repeat' first | split | dsimp only
  all_goals first
    | exact h
    | exact lookupFile_writeFile_isSome _ _ _ _ h

theorem fetch_and_save_data_preserves_holdings (ocn : String) (fh : Bool)
    (raises : ReporterCall → Bool) (o : UnitOracles) (fs : FS) (name : String)
    (h : (lookupFile fs.holdings name).isSome = true) :
    (lookupFile (fetch_and_save_data ocn fh raises o fs).fs.holdings name).isSome = true := by
  unfold fetch_and_save_data
  repeat' first | split | dsimp only
  all_goals first
    | exact h
    | exact lookupFile_writeFile_isSome _ _ _ _ h

theorem perSymbolHoldings_actions_mentions (ocn u : String) (hne : u ≠ ocn)
    (perSymbol : String → Except Exc SymbolResp) (symbols : List String) :
    ((perSymbolHoldings ocn perSymbol symbols).1.all fun a => !(a.mentions u)) = true := by
  induction symbols with
  | nil => rfl
  | cons s rest ih =>
    cases hs : perSymbol s with
    | error e => simp [perSymbolHoldings, hs, Action.mentions, ApiCall.callOcn, Ne.symm hne]
    | ok r =>
      simp only [perSymbolHoldings, hs, List.all_cons, Bool.and_eq_true]
      refine ⟨?_, ih⟩
      simp [Action.mentions, ApiCall.callOcn, Ne.symm hne]

theorem fetch_holdingsdata_actions_mentions (ocn u : String) (hne : u ≠ ocn)
    (symbols : List String) (batched : Except Exc BatchedData)
    (perSymbol : String → Except Exc SymbolResp) :
    ((fetch_holdingsdata ocn symbols batched perSymbol).1.all fun a => !(a.mentions u)) = true := by
  have hper := perSymbolHoldings_actions_mentions ocn u hne perSymbol symbols
  unfold fetch_holdingsdata
  repeat' split
  all_goals simp only [List.all_cons, List.all_nil, hper, Bool.and_true]
  all_goals simp [Action.mentions, ApiCall.callOcn, Ne.symm hne]

theorem fetch_and_save_data_actions_mentions (ocn : String) (fh : Bool)
    (raises : ReporterCall → Bool) (o : UnitOracles) (fs : FS) (u : String)
    (hne : u ≠ ocn) :
    ((fetch_and_save_data ocn fh raises o fs).actions.all fun a => !(a.mentions u)) = true := by
  have hhold := fetch_holdingsdata_actions_mentions ocn u hne default_held_by_symbols
    o.batched o.perSymbol
  unfold fetch_and_save_data
  repeat' first | split | dsimp only
  all_goals simp only [List.all_cons, List.all_nil, hhold, Bool.and_true]
  all_goals simp [Action.mentions, ApiCall.callOcn, Ne.symm hne, hhold]

/-! ## Helper lemmas: batch execution -/

theorem execUnits_map_fst (fh : Bool) (raises : ReporterCall → Bool)
    (oracles : String → UnitOracles) :
    ∀ (l : List String) (fs : FS), (execUnits fh raises oracles fs l).2.2.map Prod.fst = l := by
  intro l
  induction l with
  | nil => intro fs; rfl
  | cons x rest ih =>
    intro fs
    simp only [execUnits, List.map_cons, fetch_and_save_data_ocn, ih]

theorem execUnits_length (fh : Bool) (raises : ReporterCall → Bool)
    (oracles : String → UnitOracles) (l : List String) (fs : FS) :
    (execUnits fh raises oracles fs l).2.2.length = l.length := by
  have h := congrArg List.length (execUnits_map_fst fh raises oracles l fs)
  simpa using h

theorem execUnits_preserves_requested (fh : Bool) (raises : ReporterCall → Bool)
    (oracles : String → UnitOracles) :
    ∀ (l : List String) (fs : FS) (name : String),
      (lookupFile fs.requested name).isSome = true →
      (lookupFile (execUnits fh raises oracles fs l).1.requested name).isSome = true := by
  intro l
  induction l with
  | nil => intro fs name h; exact h
  | cons x rest ih =>
    intro fs name h
    exact ih _ name (fetch_and_save_data_preserves_requested x fh raises (oracles x) fs name h)

theorem execUnits_preserves_holdings (fh : Bool) (raises : ReporterCall → Bool)
    (oracles : String → UnitOracles) :
    ∀ (l : List String) (fs : FS) (name : String),
      (lookupFile fs.holdings name).isSome = true →
      (lookupFile (execUnits fh raises oracles fs l).1.holdings name).isSome = true := by
  intro l
  induction l with
  | nil => intro fs name h; exact h
  | cons x rest ih =>
    intro fs name h
    exact ih _ name (fetch_and_save_data_preserves_holdings x fh raises (oracles x) fs name h)

theorem execUnits_actions_mentions (fh : Bool) (raises : ReporterCall → Bool)
    (oracles : String → UnitOracles) :
    ∀ (l : List String) (fs : FS) (u : String), (∀ x ∈ l, u ≠ x) →
      ((execUnits fh raises oracles fs l).2.1.all fun a => !(a.mentions u)) = true := by
  intro l
  induction l with
  | nil => intro fs u _; rfl
  | cons x rest ih =>
    intro fs u hu
    have hhead := fetch_and_save_data_actions_mentions x fh raises (oracles x) fs u
      (hu x (List.mem_cons_self _ _))
    have htail := ih (fetch_and_save_data x fh raises (oracles x) fs).fs u
      fun y hy => hu y (List.mem_cons_of_mem _ hy)
    simp only [execUnits, List.all_append, hhead, htail, Bool.and_self]

/-! ## Helper lemmas: scheduler loop -/

theorem foldl_processResult (rs : List (String × Option String)) :
    ∀ acc : Bool × Bool × List String,
      (rs.foldl processResult acc).1 = (acc.1 && rs.all fun r => r.2.isNone)
      ∧ (rs.foldl processResult acc).2.1 = (acc.2.1 && rs.all fun r => r.2.isNone)
      ∧ (rs.foldl processResult acc).2.2 = acc.2.2 ++ rs.filterMap errorLine := by
  induction rs with
  | nil => intro acc; simp
  | cons r rest ih =>
    intro acc
    cases hr : r.2 with
    | none =>
      have hskip : processResult acc r = acc := by simp [processResult, hr]
      have hline : errorLine r = none := by simp [errorLine, hr]
      obtain ⟨i1, i2, i3⟩ := ih acc
      refine ⟨?_, ?_, ?_⟩ <;>
        simp [List.foldl_cons, hskip, hline, i1, i2, i3, List.all_cons, hr]
    | some e =>
      have hstep : processResult acc r = (false, false, acc.2.2 ++ ["OCN " ++ r.1 ++ ": " ++ e]) := by
        simp [processResult, hr]
      have hline : errorLine r = some ("OCN " ++ r.1 ++ ": " ++ e) := by simp [errorLine, hr]
      obtain ⟨i1, i2, i3⟩ := ih (false, false, acc.2.2 ++ ["OCN " ++ r.1 ++ ": " ++ e])
      refine ⟨?_, ?_, ?_⟩
      · simp [List.foldl_cons, hstep, i1, List.all_cons, hr]
      · simp [List.foldl_cons, hstep, i2, List.all_cons, hr]
      · simp [List.foldl_cons, hstep, i3, hline, List.filterMap_cons]

theorem schedulerLoop_no_stop (stop : Nat → Bool) :
    ∀ (rs : List (String × Option String)) (i : Nat) (acc : Bool × Bool × List String),
      (∀ j, j < rs.length → stop (i + j) = false) →
      schedulerLoop stop i acc rs = (rs.foldl processResult acc, i + rs.length) := by
  intro rs
  induction rs with
  | nil => intro i acc _; simp [schedulerLoop]
  | cons r rest ih =>
    intro i acc h
    have h0 : stop i = false := by simpa using h 0 (Nat.succ_pos _)
    have hrec := ih (i + 1) (processResult acc r) fun j hj => by
      have hh := h (j + 1) (Nat.succ_lt_succ hj)
      rw [show i + (j + 1) = i + 1 + j by omega] at hh
      exact hh
    simp only [schedulerLoop, h0, Bool.false_eq_true, if_false, hrec, List.foldl_cons,
      List.length_cons]
    refine Prod.ext rfl ?_
    simp only
    omega

theorem schedulerLoop_stop_at (stop : Nat → Bool) :
    ∀ (n : Nat) (rs : List (String × Option String)) (i : Nat) (acc : Bool × Bool × List String),
      (∀ j, j < n → stop (i + j) = false) → stop (i + n) = true → n ≤ rs.length →
      schedulerLoop stop i acc rs = ((rs.take n).foldl processResult acc, i + n) := by
  intro n
  induction n with
  | zero =>
    intro rs i acc _ hstop _
    have h0 : stop i = true := by simpa using hstop
    cases rs with
    | nil => simp [schedulerLoop]
    | cons r rest => simp [schedulerLoop, h0]
  | succ n ih =>
    intro rs i acc h hstop hle
    cases rs with
    | nil => simp at hle
    | cons r rest =>
      have h0 : stop i = false := by simpa using h 0 (Nat.succ_pos n)
      have hrec := ih rest (i + 1) (processResult acc r)
        (fun j hj => by
          have hh := h (j + 1) (Nat.succ_lt_succ hj)
          rw [show i + (j + 1) = i + 1 + j by omega] at hh
          exact hh)
        (by rw [show i + 1 + n = i + (n + 1) by omega]; exact hstop)
        (by simpa using hle)
      simp only [schedulerLoop, h0, Bool.false_eq_true, if_false, hrec, List.take_succ_cons,
        List.foldl_cons]
      refine Prod.ext rfl ?_
      simp only
      omega

theorem firstStopFrom_false (n : Nat) : ∀ i : Nat, firstStopFrom (fun _ => false) i n = i + n := by
  induction n with
  | zero => intro i; rfl
  | succ n ih =>
    intro i
    simp only [firstStopFrom, Bool.false_eq_true, if_false, ih]
    omega

theorem firstStopFrom_eq (stop : Nat → Bool) :
    ∀ (k i n : Nat), (∀ j, j < k → stop (i + j) = false) → stop (i + k) = true → k < n →
      firstStopFrom stop i n = i + k := by
  intro k
  induction k with
  | zero =>
    intro i n _ hstop hk
    cases n with
    | zero => omega
    | succ m =>
      have h0 : stop i = true := by simpa using hstop
      simp [firstStopFrom, h0]
  | succ k ih =>
    intro i n h hstop hk
    cases n with
    | zero => omega
    | succ m =>
      have h0 : stop i = false := by simpa using h 0 (Nat.succ_pos k)
      have hrec := ih (i + 1) m
        (fun j hj => by
          have hh := h (j + 1) (Nat.succ_lt_succ hj)
          rw [show i + (j + 1) = i + 1 + j by omega] at hh
          exact hh)
        (by rw [show i + 1 + k = i + (k + 1) by omega]; exact hstop)
        (by omega)
      simp only [firstStopFrom, h0, Bool.false_eq_true, if_false, hrec]
      omega

/-! ## Helper lemmas: pre-filter -/

theorem mem_dedupFirstGo (a : String) :
    ∀ (l seen : List String), a ∈ dedupFirstGo seen l → a ∈ l ∧ a ∉ seen := by
  intro l
  induction l with
  | nil => intro seen h; simp [dedupFirstGo] at h
  | cons x rest ih =>
    intro seen h
    by_cases hx : x ∈ seen
    · simp only [dedupFirstGo, if_pos hx] at h
      obtain ⟨h1, h2⟩ := ih seen h
      exact ⟨List.mem_cons_of_mem _ h1, h2⟩
    · simp only [dedupFirstGo, if_neg hx] at h
      rcases List.mem_cons.mp h with rfl | h'
      · exact ⟨List.mem_cons_self _ _, hx⟩
      · obtain ⟨h1, h2⟩ := ih (x :: seen) h'
        exact ⟨List.mem_cons_of_mem _ h1, fun hs => h2 (List.mem_cons_of_mem _ hs)⟩

theorem dedupFirstGo_nodup : ∀ (l seen : List String), (dedupFirstGo seen l).Nodup := by
  intro l
  induction l with
  | nil => intro seen; simp [dedupFirstGo]
  | cons x rest ih =>
    intro seen
    by_cases hx : x ∈ seen
    · simp only [dedupFirstGo, if_pos hx]
      exact ih seen
    · simp only [dedupFirstGo, if_neg hx]
      refine List.nodup_cons.mpr ⟨?_, ih (x :: seen)⟩
      intro hmem
      exact (mem_dedupFirstGo x rest (x :: seen) hmem).2 (List.mem_cons_self _ _)

theorem dedupFirst_nodup (l : List String) : (dedupFirst l).Nodup :=
  dedupFirstGo_nodup l []

theorem mem_dedupFirst (a : String) (l : List String) (h : a ∈ dedupFirst l) : a ∈ l :=
  (mem_dedupFirstGo a l [] h).1

theorem splitextRoot_xml (s : String) (h : (s.toList.any fun c => c != '.') = true) :
    splitextRoot (s ++ ".xml") = s := by
  have hrev : (s ++ ".xml").toList.reverse = 'l' :: 'm' :: 'x' :: '.' :: s.toList.reverse := by
    cases s with
    | mk data => simp [List.reverse_append]
  have haux : splitextRootRevAux (s ++ ".xml").toList.reverse = some s.toList.reverse := by
    rw [hrev]
    simp only [splitextRootRevAux]
    simp [List.any_reverse]
    simpa [List.any_eq_true, bne_iff_ne] using h
  simp only [splitextRoot, haux]
  cases s with
  | mk data => simp

theorem mem_existingBases (fs : FS) (n : String) (c : FileData) (h : (n, c) ∈ fs.requested) :
    splitextRoot n ∈ existingBases fs :=
  List.mem_map.mpr ⟨(n, c), h, rfl⟩

theorem string_contains_iff (l : List String) (a : String) : l.contains a = true ↔ a ∈ l :=
  List.elem_iff

/-! ## Claim theorems -/

/-- C1: the claim (and `main.py`'s own caption) require a global minimum
interval of 1/ceiling seconds between consecutive outbound call initiations.
Evaluating the code on one work unit for OCN `1` with holdings requested:
15 API calls are initiated (1 record fetch, 1 batched holdings attempt, 13
per-symbol holdings calls), every action is a bare call initiation, and the
total enforced pacing wait between them is 0 — `request.py` contains no rate
limiter, lock or sleep, so nothing spaces the calls apart. -/
theorem c1_calls_initiated_with_zero_enforced_wait :
    (fetch_and_save_data "1" true (fun _ => false) allOkOracles emptyFS).actions.length = 15
    ∧ ((fetch_and_save_data "1" true (fun _ => false) allOkOracles emptyFS).actions.all
        Action.isCall) = true
    ∧ sleepTotal (fetch_and_save_data "1" true (fun _ => false) allOkOracles emptyFS).actions
        = 0 :=
  ⟨rfl, rfl, rfl⟩

/-- C2 (counterexample): with the 13 default symbols where the 7th
(`NLMAA`) raises a non-rate-limit error (HTTP 500) and the batched attempt
fails, the claim says the snapshot holds 12 successful triples plus an error
marker and the unit reports success.  Instead the holdings fetch propagates
the exception (no snapshot at all) and the unit returns a unit-level
error. -/
theorem c2_counterexample :
    (fetch_holdingsdata "1" default_held_by_symbols (.error connExc) failSeventh).2
      = .error serverExc
    ∧ (fetch_and_save_data "1" true (fun _ => false) failOracles fsWithXml).error
      = some "WorldCat service error (500). Try again later."
    ∧ (fetch_and_save_data "1" true (fun _ => false) failOracles fsWithXml).error.isSome
      = true :=
  ⟨rfl, rfl, rfl⟩

/-- C2 (amended): when a symbol's request fails with any error (rate-limit
or not), the per-symbol loop propagates the exception immediately: no error
marker is recorded, the symbols after the failing one are not attempted, no
snapshot is persisted, and the work unit's overall result is the mapped
error for that identifier. -/
theorem c2_amended (ocn : String) (raises : ReporterCall → Bool) (o : UnitOracles)
    (fs : FS) (pre post : List String) (sym : String) (e : Exc)
    (hpath : usesPerSymbolPath o.batched = true)
    (hdefault : default_held_by_symbols = pre ++ sym :: post)
    (hpre : ∀ s ∈ pre, ∃ r, o.perSymbol s = .ok r)
    (herr : o.perSymbol sym = .error e)
    (hxml : (lookupFile fs.requested (xmlFilename ocn)).isSome = true)
    (hhold : (lookupFile fs.holdings (holdingsFilename ocn)).isSome = false) :
    (fetch_holdingsdata ocn default_held_by_symbols o.batched o.perSymbol).2 = .error e
    ∧ (fetch_holdingsdata ocn default_held_by_symbols o.batched o.perSymbol).1
      = .call (.summaryBatched ocn) ::
        ((pre.map fun s => Action.call (.summarySymbol ocn s)) ++
          [.call (.summarySymbol ocn sym)])
    ∧ (fetch_and_save_data ocn true raises o fs).error = some (friendly_error_message e)
    ∧ (fetch_and_save_data ocn true raises o fs).fs = fs := by
  have hfetch := fetch_holdingsdata_perSymbolPath ocn default_held_by_symbols o.batched
    o.perSymbol hpath
  have hper := perSymbolHoldings_error ocn o.perSymbol e sym pre post hpre herr
  have h2 : (fetch_holdingsdata ocn default_held_by_symbols o.batched o.perSymbol).2
      = .error e := by
    rw [hfetch]
    simp only [hdefault, hper]
  have h1 : (fetch_holdingsdata ocn default_held_by_symbols o.batched o.perSymbol).1
      = .call (.summaryBatched ocn) ::
        ((pre.map fun s => Action.call (.summarySymbol ocn s)) ++
          [.call (.summarySymbol ocn sym)]) := by
    rw [hfetch]
    simp only [hdefault, hper]
  refine ⟨h2, h1, ?_, ?_⟩ <;> simp [fetch_and_save_data, hxml, hhold, h2]

/-- C9: reporter callback failures are swallowed: for any two reporter
behaviors the unit's resulting filesystem and `(ocn, error)` result
coincide; in particular a unit whose fetch-and-persist steps all succeed
(null error under a never-raising reporter) still returns a null error when
every reporter call raises. -/
theorem c9_reporter_failure_immaterial (ocn : String) (fh : Bool)
    (raises raises' : ReporterCall → Bool) (o : UnitOracles) (fs : FS) :
    (fetch_and_save_data ocn fh raises o fs).fs = (fetch_and_save_data ocn fh raises' o fs).fs
    ∧ (fetch_and_save_data ocn fh raises o fs).error
        = (fetch_and_save_data ocn fh raises' o fs).error
    ∧ ((fetch_and_save_data ocn fh raises' o fs).error = none →
       (fetch_and_save_data ocn fh raises o fs).error = none) := by
  obtain ⟨h1, _, h3⟩ := fetch_and_save_data_raises_agnostic ocn fh raises raises' o fs
  exact ⟨h1, h3, fun h => h3.trans h⟩

/-- C9 witness: on a concrete successful unit whose reporter raises on every
call, the returned error is still null. -/
theorem c9_witness :
    (fetch_and_save_data "1" true (fun _ => true) allOkOracles emptyFS).error = none :=
  (c9_reporter_failure_immaterial "1" true (fun _ => true) (fun _ => false) allOkOracles
    emptyFS).2.2 rfl

/-- C10: on the per-symbol path, when no symbol's request raises, the
snapshot's `ocn` field is the input identifier and its holdings list has
exactly one entry per configured symbol in the given order, each carrying
the symbol and the three counts with absent counts defaulting to 0. -/
theorem c10_perSymbol_snapshot (ocn : String) (symbols : List String)
    (batched : Except Exc BatchedData) (perSymbol : String → Except Exc SymbolResp)
    (resp : String → SymbolResp)
    (hpath : usesPerSymbolPath batched = true)
    (hok : ∀ s ∈ symbols, perSymbol s = .ok (resp s)) :
    (fetch_holdingsdata ocn symbols batched perSymbol).2
      = .ok { ocn := ocn, holdings := symbols.map fun s => entryOfResp s (resp s) } := by
  rw [fetch_holdingsdata_perSymbolPath ocn symbols batched perSymbol hpath]
  simp only [perSymbolHoldings_ok ocn perSymbol resp symbols hok]

/-- C10 witness: the 13 default symbols with a response whose
`totalEditions` is absent (defaults to 0). -/
theorem c10_witness :
    (fetch_holdingsdata "1" default_held_by_symbols (.error connExc)
        (fun _ => .ok okResp)).2
      = .ok { ocn := "1",
              holdings := default_held_by_symbols.map fun s => entryOfResp s okResp } :=
  c10_perSymbol_snapshot "1" default_held_by_symbols (.error connExc) (fun _ => .ok okResp)
    (fun _ => okResp) rfl (fun _ _ => rfl)

/-- C4: for a unit whose record artifact already exists, a holdings-fetching
rerun leaves the record directory untouched (so the record artifact's bytes
are identical), writes at most the unit's own holdings artifact, and — when
the holdings artifact is absent and the fetch succeeds — persists exactly
the serialized snapshot. -/
theorem c4_record_artifact_frame (ocn : String) (raises : ReporterCall → Bool)
    (o : UnitOracles) (fs : FS)
    (hxml : (lookupFile fs.requested (xmlFilename ocn)).isSome = true) :
    (fetch_and_save_data ocn true raises o fs).fs.requested = fs.requested
    ∧ (∀ n, n ≠ holdingsFilename ocn →
        lookupFile (fetch_and_save_data ocn true raises o fs).fs.holdings n
          = lookupFile fs.holdings n)
    ∧ ((lookupFile fs.holdings (holdingsFilename ocn)).isSome = false →
       ∀ h, (fetch_holdingsdata ocn default_held_by_symbols o.batched o.perSymbol).2 = .ok h →
        lookupFile (fetch_and_save_data ocn true raises o fs).fs.holdings (holdingsFilename ocn)
          = some h.serialize) := by
  by_cases hh : (lookupFile fs.holdings (holdingsFilename ocn)).isSome = true
  · refine ⟨?_, ?_, ?_⟩
    · simp [fetch_and_save_data, hxml, hh]
    · intro n _
      simp [fetch_and_save_data, hxml, hh]
    · intro hcontra
      rw [hh] at hcontra
      exact absurd hcontra (by simp)
  · cases hres : (fetch_holdingsdata ocn default_held_by_symbols o.batched o.perSymbol).2 with
    | error e =>
      refine ⟨?_, ?_, ?_⟩
      · simp [fetch_and_save_data, hxml, hh, hres]
      · intro n _
        simp [fetch_and_save_data, hxml, hh, hres]
      · intro _ h' hh'
        exact absurd hh' (by simp)
    | ok h =>
      refine ⟨?_, ?_, ?_⟩
      · simp [fetch_and_save_data, hxml, hh, hres]
      · intro n hn
        simp [fetch_and_save_data, hxml, hh, hres, lookupFile_writeFile, hn]
      · intro _ h' hh'
        injection hh' with hh'
        subst hh'
        simp [fetch_and_save_data, hxml, hh, hres, lookupFile_writeFile]

/-- C4 witness: identifier `1` with an existing record artifact and no
holdings artifact; after the rerun the record directory is unchanged and the
holdings artifact holds the serialized snapshot. -/
theorem c4_witness :
    (lookupFile fsWithXml.requested (xmlFilename "1")).isSome = true
    ∧ (fetch_and_save_data "1" true (fun _ => false) allOkOracles fsWithXml).fs.requested
        = fsWithXml.requested :=
  ⟨rfl, (c4_record_artifact_frame "1" (fun _ => false) allOkOracles fsWithXml rfl).1⟩

/-- C3 (counterexample): for the identifier `.`, whose persisted record
artifact is the file `..xml`, `os.path.splitext` keeps the whole name (the
dots before the last one make the extension part of the root), so the
pre-filter does not drop the identifier and a work unit is submitted even
though its record artifact exists. -/
theorem c3_counterexample :
    (lookupFile fsDotArtifact.requested (xmlFilename (pyStrip "."))).isSome = true
    ∧ prefilteredOcns ["."] false fsDotArtifact = ["."]
    ∧ (process_data ["."] false (fun _ => false) (fun _ => false)
        (fun _ => allOkOracles) 1 fsDotArtifact).submitted = ["."] :=
  ⟨rfl, rfl, rfl⟩

/-- C3 (amended): if a prior run has persisted a record artifact for every
identifier in the input and every trimmed non-blank identifier contains at
least one character other than `.` (so its artifact's splitext root is the
identifier itself), then rerunning with fetch_holdings=False submits no work
unit and initiates zero network calls. -/
theorem c3_amended (rows : List String) (stop : Nat → Bool) (raises : ReporterCall → Bool)
    (oracles : String → UnitOracles) (started : Nat) (fs : FS)
    (hall : ∀ x ∈ rows, pyStrip x ≠ "" →
      (lookupFile fs.requested (pyStrip x ++ ".xml")).isSome = true
      ∧ ((pyStrip x).toList.any fun c => c != '.') = true) :
    prefilteredOcns rows false fs = []
    ∧ (process_data rows false stop raises oracles started fs).submitted = []
    ∧ (process_data rows false stop raises oracles started fs).actions = [] := by
  have hpre : prefilteredOcns rows false fs = [] := by
    simp only [prefilteredOcns, Bool.false_eq_true, if_false]
    rw [List.filter_eq_nil_iff]
    intro a ha
    have hmem := mem_dedupFirst a _ ha
    rw [List.mem_filter] at hmem
    obtain ⟨hmap, hne⟩ := hmem
    obtain ⟨x, hx, rfl⟩ := List.mem_map.mp hmap
    have hne' : pyStrip x ≠ "" := by simpa using hne
    obtain ⟨hfile, hdot⟩ := hall x hx hne'
    obtain ⟨c, hc⟩ := lookupFile_isSome_exists_mem _ _ hfile
    have hbase := mem_existingBases fs _ c hc
    rw [splitextRoot_xml _ hdot] at hbase
    simp [string_contains_iff, hbase]
  refine ⟨hpre, ?_, ?_⟩ <;> simp [process_data, hpre]

/-- C3 witness for the amended claim: two ordinary identifiers (one
duplicated, one blank entry) whose record artifacts both exist are all
dropped: nothing is submitted and no call is initiated. -/
theorem c3_witness :
    prefilteredOcns ["1", " 1 ", "", "2"] false
      { requested := [("1.xml", .bytes "a"), ("2.xml", .bytes "b")], holdings := [] } = []
    ∧ (process_data ["1", " 1 ", "", "2"] false (fun _ => false) (fun _ => false)
        (fun _ => allOkOracles) 4
        { requested := [("1.xml", .bytes "a"), ("2.xml", .bytes "b")], holdings := [] }).actions
      = [] := by
  have h := c3_amended ["1", " 1 ", "", "2"] (fun _ => false) (fun _ => false)
    (fun _ => allOkOracles) 4
    { requested := [("1.xml", .bytes "a"), ("2.xml", .bytes "b")], holdings := [] }
    (by decide)
  exact ⟨h.1, h.2.2⟩

theorem foldl_verifyStep (fs : FS) (rj : Bool) :
    ∀ (l : List String) (acc : List String × List String),
      l.foldl (verifyStep fs rj) acc
        = (acc.1 ++ (l.map pyStrip).filter
            (fun o => o != "" && !(lookupFile fs.requested (o ++ ".xml")).isSome),
           acc.2 ++ if rj then (l.map pyStrip).filter
            (fun o => o != "" && !(lookupFile fs.holdings (o ++ "_holdings.json")).isSome)
           else []) := by
  intro l
  induction l with
  | nil =>
    intro acc
    cases rj <;> simp
  | cons raw rest ih =>
    intro acc
    simp only [List.foldl_cons, ih, List.map_cons]
    by_cases h0 : pyStrip raw = ""
    · cases rj <;>
        simp [verifyStep, h0, List.filter_cons]
    · cases hx : lookupFile fs.requested (pyStrip raw ++ ".xml") <;>
        cases hj : lookupFile fs.holdings (pyStrip raw ++ "_holdings.json") <;>
        cases rj <;>
        simp [verifyStep, h0, hx, hj, List.filter_cons, List.append_assoc]

/-- C8: `verify_required_files` returns the trimmed non-blank identifiers
whose record artifact is missing and, when holdings are required, those
whose holdings artifact is missing, both in input order; `all_present` is
true iff both required missing-lists are empty.  On the concrete instance of
the claim — identifiers `1` and `2` with only `1`'s record present and no
holdings — it returns `(False, ["2"], ["1", "2"])`. -/
theorem c8_verify_required_files (fs : FS) (l : List String) (rj : Bool) :
    (verify_required_files fs l rj).2.1
      = (l.map pyStrip).filter
          (fun o => o != "" && !(lookupFile fs.requested (o ++ ".xml")).isSome)
    ∧ (verify_required_files fs l rj).2.2
      = (if rj then (l.map pyStrip).filter
            (fun o => o != "" && !(lookupFile fs.holdings (o ++ "_holdings.json")).isSome)
         else [])
    ∧ ((verify_required_files fs l rj).1 = true ↔
        ((verify_required_files fs l rj).2.1 = []
          ∧ (rj = true → (verify_required_files fs l rj).2.2 = [])))
    ∧ verify_required_files fsWithXml ["1", "2"] true = (false, ["2"], ["1", "2"]) := by
  have hf := foldl_verifyStep fs rj l ([], [])
  refine ⟨?_, ?_, ?_, rfl⟩
  · simp only [verify_required_files, hf, List.nil_append]
  · simp only [verify_required_files, hf, List.nil_append]
  · simp only [verify_required_files, hf, List.nil_append]
    cases rj <;>
      simp [List.isEmpty_iff]

/-- C8 witness: the iff of the general theorem evaluated on the claim's
concrete instance. -/
theorem c8_witness :
    (verify_required_files fsWithXml ["1", "2"] true).1 = false :=
  (c8_verify_required_files fsWithXml ["1", "2"] true).2.2.2 ▸ rfl

/-- C6: with no cancellation, the batch returns
`(all_fetched, all_saved, error_list)` where both booleans equal "every
unit returned a null error" (they start true and go false exactly when some
unit fails), the error list holds one `OCN {id}: {reason}` line per failing
unit in order, and every submitted unit is processed regardless of other
units' errors. -/
theorem c6_error_accumulation (rows : List String) (fh : Bool)
    (raises : ReporterCall → Bool) (oracles : String → UnitOracles)
    (started : Nat) (fs : FS) :
    (process_data rows fh (fun _ => false) raises oracles started fs).all_fetched
      = ((execUnits fh raises oracles fs (prefilteredOcns rows fh fs)).2.2.all
          fun u => u.2.isNone)
    ∧ (process_data rows fh (fun _ => false) raises oracles started fs).all_saved
      = ((execUnits fh raises oracles fs (prefilteredOcns rows fh fs)).2.2.all
          fun u => u.2.isNone)
    ∧ (process_data rows fh (fun _ => false) raises oracles started fs).error_list
      = (execUnits fh raises oracles fs (prefilteredOcns rows fh fs)).2.2.filterMap errorLine
    ∧ (process_data rows fh (fun _ => false) raises oracles started fs).processed
      = (prefilteredOcns rows fh fs).length := by
  by_cases hlen : (prefilteredOcns rows fh fs).length = 0
  · have hnil : prefilteredOcns rows fh fs = [] := List.length_eq_zero.mp hlen
    refine ⟨?_, ?_, ?_, ?_⟩ <;> simp [process_data, hnil, execUnits]
  · have hstopIdx : firstStopIndex (fun _ => false) (prefilteredOcns rows fh fs).length
        = (prefilteredOcns rows fh fs).length := by
      simpa using firstStopFrom_false (prefilteredOcns rows fh fs).length 0
    have hloop := schedulerLoop_no_stop (fun _ => false)
      (execUnits fh raises oracles fs (prefilteredOcns rows fh fs)).2.2 0 (true, true, [])
      (fun j _ => rfl)
    have hfold := foldl_processResult
      (execUnits fh raises oracles fs (prefilteredOcns rows fh fs)).2.2 (true, true, [])
    have hlen2 := execUnits_length fh raises oracles (prefilteredOcns rows fh fs) fs
    refine ⟨?_, ?_, ?_, ?_⟩ <;>
      simp [process_data, hlen, hstopIdx, List.take_length, hloop, hfold.1, hfold.2.1,
        hfold.2.2, hlen2]

/-- C7: the batch operates on the stripped, non-blank, de-duplicated
identifier set: the submitted list has no duplicates, every submitted
identifier is a non-blank stripped input entry, with holdings requested it
is exactly the de-duplication of the stripped non-blank input, and exactly
one work unit result is produced per submitted identifier. -/
theorem c7_dedup_batch (rows : List String) (fh : Bool) (fs : FS)
    (raises : ReporterCall → Bool) (oracles : String → UnitOracles) :
    (prefilteredOcns rows fh fs).Nodup
    ∧ (∀ o ∈ prefilteredOcns rows fh fs, o ≠ "" ∧ o ∈ rows.map pyStrip)
    ∧ prefilteredOcns rows true fs = dedupFirst ((rows.map pyStrip).filter fun s => s != "")
    ∧ ((execUnits fh raises oracles fs (prefilteredOcns rows fh fs)).2.2.map Prod.fst)
        = prefilteredOcns rows fh fs := by
  refine ⟨?_, ?_, rfl, execUnits_map_fst fh raises oracles _ fs⟩
  · unfold prefilteredOcns
    cases fh
    · simp only [Bool.false_eq_true, if_false]
      exact (dedupFirst_nodup _).filter _
    · simpa using dedupFirst_nodup _
  · intro o ho
    have hdf : o ∈ dedupFirst ((rows.map pyStrip).filter fun s => s != "") := by
      unfold prefilteredOcns at ho
      cases fh
      · simp only [Bool.false_eq_true, if_false] at ho
        exact (List.mem_filter.mp ho).1
      · simpa using ho
    have hm := mem_dedupFirst o _ hdf
    rw [List.mem_filter] at hm
    exact ⟨by simpa using hm.2, hm.1⟩

/-- C7 witness: a duplicated identifier (once with surrounding whitespace)
and a blank entry collapse to one unit each. -/
theorem c7_witness :
    prefilteredOcns ["1", " 1 ", "", "2"] true emptyFS = ["1", "2"]
    ∧ (prefilteredOcns ["1", " 1 ", "", "2"] true emptyFS).Nodup :=
  ⟨rfl, (c7_dedup_batch ["1", " 1 ", "", "2"] true emptyFS (fun _ => false)
    (fun _ => allOkOracles)).1⟩

/-- C5: when the stop flag is first observed set at iteration `K` before all
submitted units have been consumed, the scheduler consumes exactly the first
`K` completed results and returns the flags and error lines accumulated from
them alone (the partial progress), the consumed count never exceeds the
number of submitted units, every artifact present before the run is still
present afterwards (nothing is deleted), and the submitted-but-cancelled
units (beyond the `started` in-flight ones, which run to completion)
initiate no API call. -/
theorem c5_cancellation (rows : List String) (fh : Bool) (stop : Nat → Bool)
    (raises : ReporterCall → Bool) (oracles : String → UnitOracles)
    (started : Nat) (fs : FS) (K : Nat)
    (hbefore : ∀ i, i < K → stop i = false)
    (hK : stop K = true)
    (hlt : K < (prefilteredOcns rows fh fs).length) :
    (process_data rows fh stop raises oracles started fs).processed = K
    ∧ (process_data rows fh stop raises oracles started fs).processed
        ≤ (prefilteredOcns rows fh fs).length
    ∧ (process_data rows fh stop raises oracles started fs).error_list
        = ((execUnits fh raises oracles fs
            ((prefilteredOcns rows fh fs).take
              (min (prefilteredOcns rows fh fs).length (max K started)))).2.2.take K).filterMap
            errorLine
    ∧ (process_data rows fh stop raises oracles started fs).all_fetched
        = (((execUnits fh raises oracles fs
            ((prefilteredOcns rows fh fs).take
              (min (prefilteredOcns rows fh fs).length (max K started)))).2.2.take K).all
            fun u => u.2.isNone)
    ∧ (∀ name, (lookupFile fs.requested name).isSome = true →
        (lookupFile (process_data rows fh stop raises oracles started fs).fs.requested
          name).isSome = true)
    ∧ (∀ name, (lookupFile fs.holdings name).isSome = true →
        (lookupFile (process_data rows fh stop raises oracles started fs).fs.holdings
          name).isSome = true)
    ∧ (∀ u ∈ (prefilteredOcns rows fh fs).drop
          (min (prefilteredOcns rows fh fs).length (max K started)),
        ((process_data rows fh stop raises oracles started fs).actions.all
          fun a => !(a.mentions u)) = true) := by
  have hlen : ¬ (prefilteredOcns rows fh fs).length = 0 := by omega
  have hstopIdx : firstStopIndex stop (prefilteredOcns rows fh fs).length = K := by
    have h := firstStopFrom_eq stop K 0 (prefilteredOcns rows fh fs).length
      (fun j hj => by simpa using hbefore j hj) (by simpa using hK) hlt
    simpa using h
  have hEleN : min (prefilteredOcns rows fh fs).length (max K started)
      ≤ (prefilteredOcns rows fh fs).length := min_le_left _ _
  have hKE : K ≤ min (prefilteredOcns rows fh fs).length (max K started) :=
    le_min (le_of_lt hlt) (le_max_left _ _)
  have hreslen : (execUnits fh raises oracles fs
      ((prefilteredOcns rows fh fs).take
        (min (prefilteredOcns rows fh fs).length (max K started)))).2.2.length
      = min (prefilteredOcns rows fh fs).length (max K started) := by
    rw [execUnits_length, List.length_take]
    omega
  have hloop := schedulerLoop_stop_at stop K
    (execUnits fh raises oracles fs
      ((prefilteredOcns rows fh fs).take
        (min (prefilteredOcns rows fh fs).length (max K started)))).2.2 0 (true, true, [])
    (fun j hj => by simpa using hbefore j hj) (by simpa using hK)
    (by rw [hreslen]; exact hKE)
  have hfold := foldl_processResult
    ((execUnits fh raises oracles fs
      ((prefilteredOcns rows fh fs).take
        (min (prefilteredOcns rows fh fs).length (max K started)))).2.2.take K)
    (true, true, [])
  have hfs : (process_data rows fh stop raises oracles started fs).fs
      = (execUnits fh raises oracles fs
          ((prefilteredOcns rows fh fs).take
            (min (prefilteredOcns rows fh fs).length (max K started)))).1 := by
    simp [process_data, hlen, hstopIdx, hlt]
  have hacts : (process_data rows fh stop raises oracles started fs).actions
      = (execUnits fh raises oracles fs
          ((prefilteredOcns rows fh fs).take
            (min (prefilteredOcns rows fh fs).length (max K started)))).2.1 := by
    simp [process_data, hlen, hstopIdx, hlt]
  refine ⟨?_, ?_, ?_, ?_, ?_, ?_, ?_⟩
  · simp [process_data, hlen, hstopIdx, hlt, hloop]
  · simp [process_data, hlen, hstopIdx, hlt, hloop]
    omega
  · simp [process_data, hlen, hstopIdx, hlt, hloop, hfold.2.2]
  · simp [process_data, hlen, hstopIdx, hlt, hloop, hfold.1]
  · intro name hname
    rw [hfs]
    exact execUnits_preserves_requested fh raises oracles _ fs name hname
  · intro name hname
    rw [hfs]
    exact execUnits_preserves_holdings fh raises oracles _ fs name hname
  · intro u hu
    have hnodup : (prefilteredOcns rows fh fs).Nodup := by
      unfold prefilteredOcns
      cases fh
      · simp only [Bool.false_eq_true, if_false]
        exact (dedupFirst_nodup _).filter _
      · simpa using dedupFirst_nodup _
    have hdisj := List.disjoint_take_drop (l := prefilteredOcns rows fh fs) hnodup
      (le_refl (min (prefilteredOcns rows fh fs).length (max K started)))
    have hne : ∀ x ∈ (prefilteredOcns rows fh fs).take
        (min (prefilteredOcns rows fh fs).length (max K started)), u ≠ x := by
      intro x hx heq
      exact hdisj hx (heq ▸ hu)
    rw [hacts]
    exact execUnits_actions_mentions fh raises oracles _ fs u hne

/-- C5 witness: three submitted units, stop flag set from iteration 1 on,
two units started: exactly one result is consumed. -/
theorem c5_witness :
    (process_data ["1", "2", "3"] false (fun i => decide (1 ≤ i)) (fun _ => false)
      (fun _ => allOkOracles) 2 emptyFS).processed = 1 :=
  (c5_cancellation ["1", "2", "3"] false (fun i => decide (1 ≤ i)) (fun _ => false)
    (fun _ => allOkOracles) 2 emptyFS 1 (by decide) (by decide) (by decide)).1

/-- C2 witness for the amended claim: the 13 default symbols split around
the failing 7th (`NLMAA`); the unit returns the mapped 500 error. -/
theorem c2_amended_witness :
    (fetch_holdingsdata "1" default_held_by_symbols failOracles.batched
        failOracles.perSymbol).2 = .error serverExc
    ∧ (fetch_and_save_data "1" true (fun _ => false) failOracles fsWithXml).error
        = some (friendly_error_message serverExc) := by
  have h := c2_amended "1" (fun _ => false) failOracles fsWithXml
    ["QGE", "QGK", "NLTUD", "NETUE", "QGQ", "L2U"]
    ["GRG", "GRU", "QHU", "QGJ", "VU@", "WURST"] "NLMAA" serverExc
    rfl rfl
    (by
      intro s hs
      refine ⟨okResp, ?_⟩
      fin_cases hs <;> rfl)
    rfl rfl rfl
  exact ⟨h.1, h.2.2.1⟩

end Bibrecord
